import Mathlib

/-!
Verification development for a PostgreSQL data-access module (`db_manager.py`).

The module wraps one database connection and exposes:
* `insert_company` / `insert_vacancy`: conflict-ignoring inserts of loosely
  structured records (Python dictionaries coming from an upstream feed);
* read queries: average midpoint salary, vacancies above average, and a
  case-insensitive keyword search via SQL `ILIKE`.

The embedding below models:
* Python values (`PyVal`) with Python truthiness, `dict.get`, `x or y`
  defaulting, subscript access (`KeyError`) and attribute errors;
* the database state as two lists of typed rows (`companies`, `vacancies`),
  with the `INT`/`VARCHAR`/`TEXT` column adaptation performed by the driver,
  `ON CONFLICT (id) DO NOTHING`, the `NOT NULL`/`UNIQUE` constraints of the
  schema and the foreign key from vacancies to companies;
* the SQL evaluation of the read queries, including NULL propagation in
  arithmetic and comparisons, `AVG` over an integer-division midpoint
  (`(salary_from + salary_to) / 2` on `INT` columns truncates toward zero,
  modelled with `Int.tdiv`), and `ILIKE` pattern matching on lowercased
  text (`%` and `_` wildcards; escape sequences in patterns are outside the
  scope of the theorems below, which restrict keywords accordingly).

Fallible operations return `Except`; the error side carries the database
state at the moment the exception escapes, so that "raises and changes
nothing" is expressible.  A `fault : Option String` parameter on the vacancy
insert models a database-level failure of the `INSERT` statement itself
(e.g. connectivity loss), which the source catches and swallows.
-/

/-- Python/JSON-like values as supplied by the upstream feed. -/
inductive PyVal where
  | none
  | int (n : Int)
  | str (s : String)
  | bool (b : Bool)
  | dict (fields : List (String × PyVal))

/-- Python truthiness: `None`, `0`, `""`, `False` and `{}` are falsy. -/
def PyVal.truthy : PyVal → Bool
  | .none => false
  | .int n => n != 0
  | .str s => s != ""
  | .bool b => b
  | .dict fs => !fs.isEmpty

/-- Python `x or y`: `x` if truthy, else `y`. -/
def pyOr (x y : PyVal) : PyVal := if x.truthy then x else y

/-- Lookup in a Python dictionary (association list); `dict.get` semantics:
`None` when the key is absent. -/
def dictGet (fs : List (String × PyVal)) (k : String) : PyVal :=
  match fs.find? (fun p => p.1 == k) with
  | some p => p.2
  | Option.none => .none

/-- Python `key in d` membership test. -/
def hasKey (fs : List (String × PyVal)) (k : String) : Bool :=
  fs.any (fun p => p.1 == k)

/-- Exceptions the embedded code can raise. -/
inductive PyError where
  | keyError (k : String)
  | attributeError (msg : String)
  | dbError (msg : String)
deriving Repr, DecidableEq

/-- Python subscript `d[k]`: raises `KeyError` when the key is absent. -/
def getItem (fs : List (String × PyVal)) (k : String) : Except PyError PyVal :=
  match fs.find? (fun p => p.1 == k) with
  | some p => .ok p.2
  | Option.none => .error (.keyError k)

/-- Python type name, as it appears in error messages. -/
def PyVal.typeName : PyVal → String
  | .none => "NoneType"
  | .int _ => "int"
  | .str _ => "str"
  | .bool _ => "bool"
  | .dict _ => "dict"

/-- Python attribute call `v.get(k)`: only dictionaries have `.get`; any
other receiver raises `AttributeError`. -/
def PyVal.pyGet (v : PyVal) (k : String) : Except PyError PyVal :=
  match v with
  | .dict fs => .ok (dictGet fs k)
  | w => .error (.attributeError
      ("\x27" ++ w.typeName ++ "\x27 object has no attribute \x27get\x27"))

/-- Rendering of a Python value, as `print` would show it (used by the
diagnostic output of the vacancy writer). -/
def reprPyVal : PyVal → String
  | .none => "None"
  | .int n => toString n
  | .str s => "\x27" ++ s ++ "\x27"
  | .bool b => if b then "True" else "False"
  | .dict fs => "\x7b" ++ String.intercalate ", "
      (fs.attach.map (fun p => "\x27" ++ p.1.1 ++ "\x27: " ++ reprPyVal p.1.2))
      ++ "\x7d"
decreasing_by
  have hmem := p.2
  have h1 : sizeOf p.1 < sizeOf fs := List.sizeOf_lt_of_mem hmem
  have h2 : sizeOf p.1.2 < sizeOf p.1 := by
    cases p.1 with
    | mk a b => simp
  simp only [PyVal.dict.sizeOf_spec]
  omega

/-- Rendering of a Python dictionary record. -/
def reprRecord (fs : List (String × PyVal)) : String := reprPyVal (.dict fs)

/-- A row of the `companies` table
(`id INT PRIMARY KEY, name VARCHAR(255) UNIQUE NOT NULL, url TEXT`). -/
structure CompanyRow where
  id : Int
  name : String
  url : Option String
deriving Repr, DecidableEq

/-- A row of the `vacancies` table
(`id INT PRIMARY KEY, company_id INT REFERENCES companies(id),
name VARCHAR(255), salary_from INT, salary_to INT, currency VARCHAR(10),
url TEXT`). -/
structure VacancyRow where
  id : Int
  company_id : Option Int
  name : Option String
  salary_from : Option Int
  salary_to : Option Int
  currency : Option String
  url : Option String
deriving Repr, DecidableEq

/-- The database state: the contents of the two tables. -/
structure DBState where
  companies : List CompanyRow
  vacancies : List VacancyRow
deriving Repr, DecidableEq

/-- A freshly initialized database (`create_tables` on an empty schema). -/
def DBState.empty : DBState := ⟨[], []⟩

/-- Well-formedness maintained by the database engine: primary keys are
unique in each table. -/
def DBState.wf (st : DBState) : Prop :=
  (st.companies.map (fun c => c.id)).Nodup ∧
  (st.vacancies.map (fun v => v.id)).Nodup

instance (st : DBState) : Decidable st.wf := by
  unfold DBState.wf; infer_instance

/-- Driver/database adaptation of a Python value into an `INT` column.
Strings are passed as literals and cast by the database; non-numeric text,
booleans and dictionaries make the statement fail. -/
def toIntCol : PyVal → Except String (Option Int)
  | .none => .ok Option.none
  | .int n => .ok (some n)
  | .str s =>
    match s.toInt? with
    | some n => .ok (some n)
    | Option.none => .error ("invalid input syntax for type integer: " ++ s)
  | .bool _ => .error "column is of type integer but expression is of type boolean"
  | .dict _ => .error "can not adapt type dict"

/-- Adaptation into a `VARCHAR(limit)` column, enforcing the length limit. -/
def toVarchar (limit : Nat) : PyVal → Except String (Option String)
  | .none => .ok Option.none
  | .str s =>
    if s.length ≤ limit then .ok (some s)
    else .error "value too long for type character varying"
  | .int _ => .error "column is of type character varying but expression is of type integer"
  | .bool _ => .error "column is of type character varying but expression is of type boolean"
  | .dict _ => .error "can not adapt type dict"

/-- Adaptation into a `TEXT` column. -/
def toText : PyVal → Except String (Option String)
  | .none => .ok Option.none
  | .str s => .ok (some s)
  | .int _ => .error "column is of type text but expression is of type integer"
  | .bool _ => .error "column is of type text but expression is of type boolean"
  | .dict _ => .error "can not adapt type dict"

/-- Execution of
`INSERT INTO companies (id, name, url) VALUES (%s, %s, %s)
ON CONFLICT (id) DO NOTHING`:
the parameters are adapted, a conflicting primary key makes the statement a
no-op, otherwise the `NOT NULL` and `UNIQUE` constraints are enforced and
the row is appended. -/
def execInsertCompany (st : DBState) (idv namev urlv : PyVal) :
    Except String DBState :=
  match toIntCol idv with
  | .error e => .error e
  | .ok idc =>
  match toVarchar 255 namev with
  | .error e => .error e
  | .ok namec =>
  match toText urlv with
  | .error e => .error e
  | .ok urlc =>
  match idc with
  | Option.none => .error "null value in column id of relation companies violates not-null constraint"
  | some i =>
    if st.companies.any (fun c => c.id == i) then .ok st
    else
      match namec with
      | Option.none => .error "null value in column name of relation companies violates not-null constraint"
      | some nm =>
        if st.companies.any (fun c => c.name == nm) then
          .error "duplicate key value violates unique constraint companies_name_key"
        else .ok { st with companies := st.companies ++ [{ id := i, name := nm, url := urlc }] }

/-- `DBManager.insert_company`: reads `company[...]` fields (a missing key
raises `KeyError`) and executes the conflict-ignoring insert; database
errors propagate to the caller unrecovered.  The error side carries the
database state at the moment the exception escapes. -/
def insert_company (company : List (String × PyVal)) (st : DBState) :
    Except (PyError × DBState) DBState :=
  match getItem company "id" with
  | .error e => .error (e, st)
  | .ok idv =>
  match getItem company "name" with
  | .error e => .error (e, st)
  | .ok namev =>
  match getItem company "alternate_url" with
  | .error e => .error (e, st)
  | .ok urlv =>
  match execInsertCompany st idv namev urlv with
  | .ok st2 => .ok st2
  | .error msg => .error (.dbError msg, st)

/-- The required vacancy fields checked by `insert_vacancy`. -/
def requiredKeys : List String := ["id", "name", "alternate_url"]

/-- Lines 74-77 of the source: salary extraction with `or`-defaulting.
`salary = vacancy.get('salary') or {}` followed by
`salary.get('from') or 0`, `salary.get('to') or 0`,
`salary.get('currency') or 'RUR'`; a truthy non-dictionary salary makes the
first `.get` raise `AttributeError` (this happens before the `try` block). -/
def salaryTriple (vacancy : List (String × PyVal)) :
    Except PyError (PyVal × PyVal × PyVal) :=
  let salary := pyOr (dictGet vacancy "salary") (.dict [])
  match salary.pyGet "from" with
  | .error e => .error e
  | .ok fv =>
  match salary.pyGet "to" with
  | .error e => .error e
  | .ok tv =>
  match salary.pyGet "currency" with
  | .error e => .error e
  | .ok cv => .ok (pyOr fv (.int 0), pyOr tv (.int 0), pyOr cv (.str "RUR"))

/-- Execution of
`INSERT INTO vacancies (id, company_id, name, salary_from, salary_to,
currency, url) VALUES (...) ON CONFLICT (id) DO NOTHING`.
`fault` models a database-level failure of the statement itself
(connectivity loss and the like); otherwise parameters are adapted, a
conflicting primary key is a no-op, and the foreign key to `companies` is
enforced for a genuinely new row. -/
def execInsertVacancy (fault : Option String) (st : DBState) (idv : PyVal)
    (company_id : Int) (namev sfv stv curv urlv : PyVal) :
    Except String DBState :=
  match fault with
  | some msg => .error msg
  | Option.none =>
  match toIntCol idv with
  | .error e => .error e
  | .ok idc =>
  match toVarchar 255 namev with
  | .error e => .error e
  | .ok namec =>
  match toIntCol sfv with
  | .error e => .error e
  | .ok sfc =>
  match toIntCol stv with
  | .error e => .error e
  | .ok stc =>
  match toVarchar 10 curv with
  | .error e => .error e
  | .ok curc =>
  match toText urlv with
  | .error e => .error e
  | .ok urlc =>
  match idc with
  | Option.none => .error "null value in column id of relation vacancies violates not-null constraint"
  | some i =>
    if st.vacancies.any (fun r => r.id == i) then .ok st
    else if st.companies.any (fun c => c.id == company_id) then
      .ok { st with vacancies := st.vacancies ++
        [{ id := i, company_id := some company_id, name := namec,
           salary_from := sfc, salary_to := stc, currency := curc, url := urlc }] }
    else .error "insert or update on table vacancies violates foreign key constraint"

/-- `DBManager.insert_vacancy`: skips silently when a required key is
absent; extracts the salary with `or`-defaulting (which can raise, before
the `try` block); then runs the insert inside `try/except`, printing two
diagnostic lines and returning normally when the statement fails.  The
subscript reads inside the `try` use `dictGet` because the guard has
already established key presence.  Returns the new state and the printed
diagnostic lines. -/
def insert_vacancy (fault : Option String) (vacancy : List (String × PyVal))
    (company_id : Int) (st : DBState) :
    Except (PyError × DBState) (DBState × List String) :=
  if requiredKeys.all (fun k => hasKey vacancy k) then
    match salaryTriple vacancy with
    | .error e => .error (e, st)
    | .ok (salary_from, salary_to, currency) =>
      match execInsertVacancy fault st (dictGet vacancy "id") company_id
          (dictGet vacancy "name") salary_from salary_to currency
          (dictGet vacancy "alternate_url") with
      | .ok st2 => .ok (st2, [])
      | .error msg => .ok (st,
          ["Ошибка при добавлении вакансии: " ++ msg,
           "Проблемная вакансия: " ++ reprRecord vacancy])
  else .ok (st, [])

/-- SQL `NULL`-propagating integer addition. -/
def sqlAddInt : Option Int → Option Int → Option Int
  | some a, some b => some (a + b)
  | _, _ => Option.none

/-- SQL integer division by two (`INT / INT` truncates toward zero),
propagating `NULL`. -/
def sqlDiv2 : Option Int → Option Int
  | some a => some (Int.tdiv a 2)
  | Option.none => Option.none

/-- The per-row SQL expression `(salary_from + salary_to) / 2`. -/
def rowMidpoint (v : VacancyRow) : Option Int :=
  sqlDiv2 (sqlAddInt v.salary_from v.salary_to)

/-- SQL `AVG` over integer expressions: `NULL` inputs are skipped, the
result is `NULL` when no non-`NULL` input remains, and otherwise an exact
`numeric` (rational) mean. -/
def sqlAvg (xs : List (Option Int)) : Option ℚ :=
  let vs := xs.filterMap id
  if vs.isEmpty then Option.none
  else some ((vs.map (fun n => (Int.cast n : ℚ))).sum / (vs.length : ℚ))

/-- The `WHERE salary_from IS NOT NULL AND salary_to IS NOT NULL` filter. -/
def avgWhere (st : DBState) : List VacancyRow :=
  st.vacancies.filter (fun v => v.salary_from.isSome && v.salary_to.isSome)

/-- `DBManager.get_avg_salary`:
`SELECT AVG((salary_from + salary_to) / 2) FROM vacancies
WHERE salary_from IS NOT NULL AND salary_to IS NOT NULL`. -/
def get_avg_salary (st : DBState) : Option ℚ :=
  sqlAvg ((avgWhere st).map rowMidpoint)

/-- SQL comparison `x > param` used as a `WHERE` condition: a row passes
only when the comparison is `TRUE`; a `NULL` on either side is not
`TRUE`. -/
def sqlGtParam (x : Option Int) (param : Option ℚ) : Bool :=
  match x, param with
  | some a, some q => decide ((a : ℚ) > q)
  | _, _ => false

/-- The result shape `(name, salary_from, salary_to, url)` shared by the
above-average and keyword queries. -/
abbrev VTuple := Option String × Option Int × Option Int × Option String

/-- The projection `SELECT name, salary_from, salary_to, url`. -/
def vTuple (v : VacancyRow) : VTuple :=
  (v.name, v.salary_from, v.salary_to, v.url)

/-- `DBManager.get_vacancies_with_higher_salary`: recomputes the average
via `get_avg_salary`, then
`SELECT name, salary_from, salary_to, url FROM vacancies
WHERE ((salary_from + salary_to) / 2) > %s` with the average as the
parameter (`NULL` when the average was undefined). -/
def get_vacancies_with_higher_salary (st : DBState) : List VTuple :=
  let avg_salary := get_avg_salary st
  (st.vacancies.filter (fun v => sqlGtParam (rowMidpoint v) avg_salary)).map vTuple

/-- Does a (lowercased) `LIKE` pattern match a (lowercased) string?
`%` matches any sequence, `_` any single character, anything else itself.
Patterns containing the escape character are outside the scope of the
theorems below. -/
def anySuffix (f : List Char → Bool) : List Char → Bool
  | [] => f []
  | c :: cs => f (c :: cs) || anySuffix f cs

def likeMatch : List Char → List Char → Bool
  | [], s => s.isEmpty
  | p :: ps, s =>
    if p = '%' then anySuffix (fun t => likeMatch ps t) s
    else if p = '_' then
      match s with
      | [] => false
      | _ :: cs => likeMatch ps cs
    else
      match s with
      | [] => false
      | c :: cs => (p == c) && likeMatch ps cs

/-- SQL `name ILIKE pattern`: case-insensitive `LIKE`, i.e. `LIKE` on the
lowercased operands. -/
def sqlIlike (s : String) (pat : List Char) : Bool :=
  likeMatch (pat.map Char.toLower) (s.data.map Char.toLower)

/-- `DBManager.get_vacancies_with_keyword`:
`SELECT name, salary_from, salary_to, url FROM vacancies
WHERE name ILIKE %s` with the pattern `f'%{keyword}%'`
(the keyword is interpolated between two `%` wildcards, unescaped).
A `NULL` name makes the condition non-`TRUE`, excluding the row. -/
def get_vacancies_with_keyword (st : DBState) (keyword : String) : List VTuple :=
  st.vacancies.filterMap (fun v =>
    match v.name with
    | some nm =>
      if sqlIlike nm ('%' :: keyword.data ++ ['%']) then
        some (some nm, v.salary_from, v.salary_to, v.url)
      else Option.none
    | Option.none => Option.none)

/-! Specification-side definitions

The definitions below follow the wording of the specification (and, for the
corrected claims, the amended wording); the theorems compare them with the
source-derived definitions above. -/

/-- The midpoint salary of the specification glossary:
`(salary_from + salary_to) / 2` on `INT` columns (integer division). -/
def specMidpoint (a b : Int) : Int := Int.tdiv (a + b) 2

/-- The qualifying rows of the average-salary specification: exactly those
vacancies where both salary bounds are non-null, with their bounds. -/
def specQualifying (st : DBState) : List (Int × Int) :=
  st.vacancies.filterMap (fun v =>
    match v.salary_from, v.salary_to with
    | some a, some b => some (a, b)
    | _, _ => Option.none)

/-- Is `needle` a prefix of `hay`? -/
def prefixMatch : List Char → List Char → Bool
  | [], _ => true
  | _ :: _, [] => false
  | a :: as, b :: bs => (a == b) && prefixMatch as bs

/-- Is `needle` a contiguous substring of `hay`? -/
def substrMatch (needle : List Char) : List Char → Bool
  | [] => prefixMatch needle []
  | c :: cs => prefixMatch needle (c :: cs) || substrMatch needle cs

/-- Case-insensitive substring containment, the relation of the keyword
search specification. -/
def containsCI (hay needle : String) : Bool :=
  substrMatch (needle.data.map Char.toLower) (hay.data.map Char.toLower)

/-- The keyword-search result described by the specification: the
`(name, salary_from, salary_to, url)` tuples of the vacancies whose name
contains the keyword as a case-insensitive substring. -/
def keywordSpec (st : DBState) (keyword : String) : List VTuple :=
  st.vacancies.filterMap (fun v =>
    match v.name with
    | some nm =>
      if containsCI nm keyword then
        some (some nm, v.salary_from, v.salary_to, v.url)
      else Option.none
    | Option.none => Option.none)

/-- No SQL `LIKE` metacharacter (`%`, `_`, or the escape character `\`)
occurs in the list. -/
def noMetaL (l : List Char) : Bool :=
  l.all (fun c => c != '%' && c != '_' && c != '\\')

/-- The above-average result described by the specification: the tuples of
the vacancies with both bounds non-null whose midpoint strictly exceeds the
given average. -/
def specHigher (st : DBState) (q : ℚ) : List VTuple :=
  (st.vacancies.filter (fun v =>
    match v.salary_from, v.salary_to with
    | some a, some b => decide ((specMidpoint a b : ℚ) > q)
    | _, _ => false)).map vTuple

/-- Shape restriction for the salary-defaulting claim: the salary
sub-structure is absent/null or a mapping whose `from`/`to` values are
absent, null or integers and whose `currency` value is absent, null or a
string. -/
def intOrAbsent : PyVal → Bool
  | .none => true
  | .int _ => true
  | _ => false

/-- The value is absent/null or a string. -/
def strOrAbsent : PyVal → Bool
  | .none => true
  | .str _ => true
  | _ => false

/-- A salary sub-structure within the scope of the defaulting claim (see
`intOrAbsent` for the field values). -/
def salShapeOk : PyVal → Bool
  | .none => true
  | .dict fs =>
    intOrAbsent (dictGet fs "from") && intOrAbsent (dictGet fs "to") &&
      strOrAbsent (dictGet fs "currency")
  | _ => false

/-- The amended defaulting policy for the stored lower bound: an absent,
null or zero `from` is stored as `0`, any other integer as given. -/
def expFrom : PyVal → Int
  | .dict fs =>
    (match dictGet fs "from" with
     | .int n => n
     | _ => 0)
  | _ => 0

/-- The amended defaulting policy for the stored upper bound. -/
def expTo : PyVal → Int
  | .dict fs =>
    (match dictGet fs "to" with
     | .int n => n
     | _ => 0)
  | _ => 0

/-- The amended defaulting policy for the stored currency: an absent, null
or empty-string currency is stored as `"RUR"`, any other string as given
(this is where the original claim fails: a present, non-null empty string
is falsy in Python and is also replaced). -/
def expCurrency : PyVal → String
  | .dict fs =>
    (match dictGet fs "currency" with
     | .str s => if s == "" then "RUR" else s
     | _ => "RUR")
  | _ => "RUR"

/-- The integer identifier a company record supplies for the `id` column,
when it supplies one. -/
def companyIdOf (c : List (String × PyVal)) : Option Int :=
  match getItem c "id" with
  | .ok v =>
    (match toIntCol v with
     | .ok (some i) => some i
     | _ => Option.none)
  | .error _ => Option.none

/-- The integer identifier a vacancy record supplies for the `id` column,
when it supplies one. -/
def vacIdOf (v : List (String × PyVal)) : Option Int :=
  match toIntCol (dictGet v "id") with
  | .ok (some i) => some i
  | _ => Option.none

/-! Concrete fixtures used by witnesses and counterexamples. -/

/-- A stored company, as produced by inserting `cW` into an empty state. -/
def companyAcme : CompanyRow := { id := 1, name := "Acme", url := some "http://acme" }

/-- A state holding exactly one company. -/
def stOneCompany : DBState := ⟨[companyAcme], []⟩

/-- A well-formed company record. -/
def cW : List (String × PyVal) :=
  [("id", .int 1), ("name", .str "Acme"), ("alternate_url", .str "http://acme")]

/-- A well-formed vacancy record with a full salary sub-structure
(the end-to-end example of the specification). -/
def vW1 : List (String × PyVal) :=
  [("id", .int 10), ("name", .str "Engineer"),
   ("alternate_url", .str "http://acme/10"),
   ("salary", .dict [("from", .int 1000), ("to", .int 2000),
                     ("currency", .str "USD")])]

/-- The vacancy row stored for `vW1`. -/
def rowVW1 : VacancyRow :=
  { id := 10, company_id := some 1, name := some "Engineer",
    salary_from := some 1000, salary_to := some 2000,
    currency := some "USD", url := some "http://acme/10" }

/-- The state after inserting `cW` and then `vW1`. -/
def stVW1 : DBState := ⟨[companyAcme], [rowVW1]⟩

/-- A vacancy record missing the required `name` and `alternate_url`
keys. -/
def vC2 : List (String × PyVal) := [("id", .int 1)]

/-- A vacancy record whose `salary` is a truthy non-mapping value. -/
def v9 : List (String × PyVal) :=
  [("id", .int 7), ("name", .str "Dev"), ("alternate_url", .str "http://x/7"),
   ("salary", .str "high")]

/-- A vacancy record with required fields and no salary key. -/
def vW4 : List (String × PyVal) :=
  [("id", .int 2), ("name", .str "QA"), ("alternate_url", .str "http://x/2")]

/-- A vacancy record whose salary carries a present, non-null, empty-string
currency. -/
def vC3 : List (String × PyVal) :=
  [("id", .int 40), ("name", .str "Analyst"),
   ("alternate_url", .str "http://x/40"),
   ("salary", .dict [("from", .int 100), ("to", .none),
                     ("currency", .str "")])]

/-- A vacancy record with a fully truthy, well-typed salary. -/
def vW3 : List (String × PyVal) :=
  [("id", .int 41), ("name", .str "Dev2"),
   ("alternate_url", .str "http://x/41"),
   ("salary", .dict [("from", .int 500), ("to", .int 900),
                     ("currency", .str "USD")])]

/-- The state after inserting `vW3` into `stOneCompany`. -/
def stW3r : DBState :=
  ⟨[companyAcme],
   [{ id := 41, company_id := some 1, name := some "Dev2",
      salary_from := some 500, salary_to := some 900,
      currency := some "USD", url := some "http://x/41" }]⟩

/-- Two vacancies with midpoints 150 and 400 (average 275). -/
def stW6 : DBState :=
  ⟨[],
   [{ id := 10, company_id := some 1, name := some "Junior",
      salary_from := some 100, salary_to := some 200,
      currency := some "RUR", url := some "u10" },
    { id := 11, company_id := some 1, name := some "Senior",
      salary_from := some 300, salary_to := some 500,
      currency := some "RUR", url := some "u11" }]⟩

/-- One vacancy named `abc`. -/
def stW10 : DBState :=
  ⟨[],
   [{ id := 20, company_id := some 1, name := some "abc",
      salary_from := some 1, salary_to := some 2,
      currency := some "RUR", url := some "u20" }]⟩

/-- One vacancy named `SENIOR ENGINEER`. -/
def stSenior : DBState :=
  ⟨[],
   [{ id := 30, company_id := some 1, name := some "SENIOR ENGINEER",
      salary_from := some 1, salary_to := some 2,
      currency := some "RUR", url := some "u30" }]⟩

/-! Helper lemmas. -/

theorem pyOr_dict_empty (fs : List (String × PyVal)) :
    pyOr (.dict fs) (.dict []) = .dict fs := by
  cases fs <;> simp [pyOr, PyVal.truthy]

theorem pyOr_int_zero (n : Int) : pyOr (.int n) (.int 0) = .int n := by
  by_cases h : n = 0 <;> simp [pyOr, PyVal.truthy, h]

theorem pyOr_str_default (s d : String) :
    pyOr (.str s) (.str d) = .str (if s == "" then d else s) := by
  by_cases h : s = "" <;> simp [pyOr, PyVal.truthy, h]

/-- Under the shape restriction, the salary extraction of lines 74-77
computes exactly the amended defaulting policy. -/
theorem salaryTriple_of_shape (v : List (String × PyVal))
    (h : salShapeOk (dictGet v "salary") = true) :
    salaryTriple v =
      .ok (.int (expFrom (dictGet v "salary")),
           .int (expTo (dictGet v "salary")),
           .str (expCurrency (dictGet v "salary"))) := by
  unfold salaryTriple
  cases hsal : dictGet v "salary" with
  | none =>
    simp [pyOr, PyVal.truthy, PyVal.pyGet, dictGet, expFrom, expTo, expCurrency]
  | int n => rw [hsal] at h; simp [salShapeOk] at h
  | str s => rw [hsal] at h; simp [salShapeOk] at h
  | bool b => rw [hsal] at h; simp [salShapeOk] at h
  | dict fs =>
    rw [hsal] at h
    simp only [salShapeOk, Bool.and_eq_true] at h
    obtain ⟨⟨hf, ht⟩, hc⟩ := h
    have hfrom : pyOr (dictGet fs "from") (.int 0) = .int (expFrom (.dict fs)) := by
      cases hfv : dictGet fs "from" with
      | none => simp [pyOr, PyVal.truthy, expFrom, hfv]
      | int n => simp [pyOr_int_zero, expFrom, hfv]
      | str s => rw [hfv] at hf; simp [intOrAbsent] at hf
      | bool b => rw [hfv] at hf; simp [intOrAbsent] at hf
      | dict g => rw [hfv] at hf; simp [intOrAbsent] at hf
    have hto : pyOr (dictGet fs "to") (.int 0) = .int (expTo (.dict fs)) := by
      cases htv : dictGet fs "to" with
      | none => simp [pyOr, PyVal.truthy, expTo, htv]
      | int n => simp [pyOr_int_zero, expTo, htv]
      | str s => rw [htv] at ht; simp [intOrAbsent] at ht
      | bool b => rw [htv] at ht; simp [intOrAbsent] at ht
      | dict g => rw [htv] at ht; simp [intOrAbsent] at ht
    have hcur : pyOr (dictGet fs "currency") (.str "RUR") =
        .str (expCurrency (.dict fs)) := by
      cases hcv : dictGet fs "currency" with
      | none => simp [pyOr, PyVal.truthy, expCurrency, hcv]
      | str s => simp [pyOr_str_default, expCurrency, hcv]
      | int n => rw [hcv] at hc; simp [strOrAbsent] at hc
      | bool b => rw [hcv] at hc; simp [strOrAbsent] at hc
      | dict g => rw [hcv] at hc; simp [strOrAbsent] at hc
    simp [pyOr_dict_empty, PyVal.pyGet, hfrom, hto, hcur]

/-- In a list with pairwise-distinct keys, filtering on one present key
yields exactly one element. -/
theorem filter_key_length_one {α : Type} (f : α → Int) (l : List α) (i : Int)
    (hnd : (l.map f).Nodup) (hmem : ∃ c ∈ l, f c = i) :
    (l.filter (fun c => f c == i)).length = 1 := by
  induction l with
  | nil => simp at hmem
  | cons a as ih =>
    simp only [List.map_cons, List.nodup_cons] at hnd
    by_cases ha : f a = i
    · rw [List.filter_cons_of_pos (by simp [ha])]
      have hnil : as.filter (fun c => f c == i) = [] := by
        rw [List.filter_eq_nil_iff]
        intro c hc
        simp only [beq_iff_eq]
        intro hci
        exact hnd.1 (by rw [ha, ← hci]; exact List.mem_map_of_mem f hc)
      simp [hnil]
    · rw [List.filter_cons_of_neg (by simp [ha])]
      rcases hmem with ⟨c, hc, hci⟩
      rcases List.mem_cons.mp hc with h1 | h1
      · exact absurd (h1 ▸ hci) ha
      · exact ih hnd.2 ⟨c, h1, hci⟩

theorem anySuffix_congr {f g : List Char → Bool} (h : ∀ t, f t = g t) :
    ∀ s, anySuffix f s = anySuffix g s
  | [] => by simp [anySuffix, h]
  | c :: cs => by simp [anySuffix, h, anySuffix_congr h cs]

theorem likeMatch_percent_only : ∀ s, likeMatch ['%'] s = true
  | [] => rfl
  | c :: cs => by
    simp [likeMatch, anySuffix, List.isEmpty]
    have := likeMatch_percent_only cs
    simp [likeMatch, anySuffix] at this
    exact this

/-- A metacharacter-free pattern followed by `%` matches exactly the
strings it is a prefix of. -/
theorem likeMatch_lit_percent :
    ∀ (kw : List Char), noMetaL kw = true →
      ∀ t, likeMatch (kw ++ ['%']) t = prefixMatch kw t := by
  intro kw
  induction kw with
  | nil =>
    intro _ t
    simp [prefixMatch, likeMatch_percent_only t]
  | cons k ks ih =>
    intro hk t
    simp only [noMetaL, List.all_cons, Bool.and_eq_true, bne_iff_ne] at hk
    obtain ⟨⟨⟨hk1, hk2⟩, _⟩, hks⟩ := hk
    have hks2 : noMetaL ks = true := by simp [noMetaL, hks]
    cases t with
    | nil => simp [likeMatch, prefixMatch, hk1, hk2]
    | cons c cs =>
      simp [likeMatch, prefixMatch, hk1, hk2, ih hks2 cs]

/-- The full `%keyword%` pattern, for a metacharacter-free keyword, matches
exactly the strings containing the keyword as a substring. -/
theorem likeMatch_pct_lit_pct (kw : List Char) (hk : noMetaL kw = true) :
    ∀ s, likeMatch ('%' :: (kw ++ ['%'])) s = substrMatch kw s := by
  have hA : ∀ s, likeMatch ('%' :: (kw ++ ['%'])) s
      = anySuffix (fun t => likeMatch (kw ++ ['%']) t) s := fun _ => rfl
  intro s
  induction s with
  | nil =>
    rw [hA]
    show likeMatch (kw ++ ['%']) [] = substrMatch kw []
    rw [likeMatch_lit_percent kw hk, substrMatch]
  | cons c cs ih =>
    have hB : anySuffix (fun t => likeMatch (kw ++ ['%']) t) (c :: cs)
        = (likeMatch (kw ++ ['%']) (c :: cs)
            || anySuffix (fun t => likeMatch (kw ++ ['%']) t) cs) := rfl
    rw [hA, hB, ← hA cs, ih, likeMatch_lit_percent kw hk, substrMatch]

theorem toLower_toNat_of_range (c : Char) (h1 : 65 ≤ c.toNat) (h2 : c.toNat ≤ 90) :
    (Char.toLower c).toNat = c.toNat + 32 := by
  unfold Char.toLower
  rw [if_pos ⟨h1, h2⟩]
  have hv : (c.toNat + 32).isValidChar := by
    left
    omega
  rw [Char.ofNat, dif_pos hv]
  simp [Char.ofNatAux, Char.toNat, UInt32.toNat, BitVec.ofNatLt]

/-- Lowercasing maps no character onto a character below code point 97
other than itself; in particular it cannot create `%`, `_` or `\`. -/
theorem toLower_eq_lowmeta {c m : Char} (hv : m.toNat < 97) (h : c.toLower = m) :
    c = m := by
  by_cases hr : 65 ≤ c.toNat ∧ c.toNat ≤ 90
  · exfalso
    have := toLower_toNat_of_range c hr.1 hr.2
    rw [h] at this
    omega
  · unfold Char.toLower at h
    rw [if_neg] at h
    · exact h
    · intro hc
      exact hr ⟨hc.1, hc.2⟩

/-- A metacharacter-free keyword stays metacharacter-free when
lowercased. -/
theorem noMetaL_map_toLower (l : List Char) (h : noMetaL l = true) :
    noMetaL (l.map Char.toLower) = true := by
  simp only [noMetaL, List.all_map, List.all_eq_true, Function.comp,
    Bool.and_eq_true, bne_iff_ne] at h ⊢
  intro c hc
  obtain ⟨⟨h1, h2⟩, h3⟩ := h c hc
  refine ⟨⟨fun he => h1 ?_, fun he => h2 ?_⟩, fun he => h3 ?_⟩
  · exact toLower_eq_lowmeta (by decide) he
  · exact toLower_eq_lowmeta (by decide) he
  · exact toLower_eq_lowmeta (by decide) he

/-- The value pipeline of `get_avg_salary`: the `WHERE`-filtered rows all
have a non-`NULL` midpoint, and those midpoints are the spec-side
midpoints of the qualifying rows. -/
theorem midpoints_pipeline (l : List VacancyRow) :
    ((l.filter (fun v => v.salary_from.isSome && v.salary_to.isSome)).map
        rowMidpoint).filterMap id
      = (l.filterMap (fun v =>
          match v.salary_from, v.salary_to with
          | some a, some b => some (a, b)
          | _, _ => Option.none)).map (fun p => specMidpoint p.1 p.2) := by
  induction l with
  | nil => rfl
  | cons v vs ih =>
    cases hsf : v.salary_from <;> cases hst : v.salary_to <;>
      simp [List.filter_cons, hsf, hst, rowMidpoint, sqlAddInt, sqlDiv2,
        specMidpoint, ih]

/-! Claim theorems. -/

/-- Claim C2: whenever at least one of the keys `id`, `name`, `alternate_url` is
absent from a vacancy record, `insert_vacancy` inserts zero rows, raises no
error, prints nothing, and leaves the database state unchanged — whatever
the database would have done to the statement. -/
theorem c2_missing_required_key_noop (fault : Option String)
    (v : List (String × PyVal)) (cid : Int) (st : DBState)
    (h : requiredKeys.all (fun k => hasKey v k) = false) :
    insert_vacancy fault v cid st = .ok (st, []) := by
  unfold insert_vacancy
  simp [h]

theorem c2_witness :
    requiredKeys.all (fun k => hasKey vC2 k) = false ∧
    insert_vacancy (some "boom") vC2 1 DBState.empty = .ok (DBState.empty, []) :=
  ⟨rfl, c2_missing_required_key_noop (some "boom") vC2 1 DBState.empty rfl⟩

/-- Claim C9: there is a vacancy record with all required fields present whose
truthy non-mapping `salary` (here a string) makes `insert_vacancy` raise
`AttributeError` to the caller, before any database work: the error escapes
and the state is unchanged (no row inserted). -/
theorem c9_truthy_nonmapping_salary_raises :
    requiredKeys.all (fun k => hasKey v9 k) = true ∧
    PyVal.truthy (dictGet v9 "salary") = true ∧
    insert_vacancy Option.none v9 1 stOneCompany =
      .error (.attributeError
        "\x27str\x27 object has no attribute \x27get\x27", stOneCompany) ∧
    stOneCompany.vacancies = [] :=
  ⟨rfl, rfl, rfl, rfl⟩

/-- Claim C4: whenever the required fields are present and the salary extraction
succeeds, a database error of any kind raised by the insert statement is
caught and swallowed: the method returns normally with the state unchanged,
and the two diagnostic lines (error message, offending record) are
printed. -/
theorem c4_db_error_swallowed (fault : Option String)
    (v : List (String × PyVal)) (cid : Int) (st : DBState)
    (sf sv cur : PyVal) (msg : String)
    (hreq : requiredKeys.all (fun k => hasKey v k) = true)
    (htriple : salaryTriple v = .ok (sf, sv, cur))
    (hexec : execInsertVacancy fault st (dictGet v "id") cid (dictGet v "name")
        sf sv cur (dictGet v "alternate_url") = .error msg) :
    insert_vacancy fault v cid st = .ok (st,
      ["Ошибка при добавлении вакансии: " ++ msg,
       "Проблемная вакансия: " ++ reprRecord v]) := by
  unfold insert_vacancy
  simp [hreq, htriple, hexec]

theorem c4_witness :
    insert_vacancy (some "server closed the connection unexpectedly")
        vW4 5 DBState.empty
      = .ok (DBState.empty,
        ["Ошибка при добавлении вакансии: server closed the connection unexpectedly",
         "Проблемная вакансия: " ++ reprRecord vW4]) :=
  c4_db_error_swallowed (some "server closed the connection unexpectedly")
    vW4 5 DBState.empty (.int 0) (.int 0) (.str "RUR")
    "server closed the connection unexpectedly" rfl rfl rfl

/-- Claim C8: when every vacancy row has a null salary bound (in particular when
the table is empty), `get_avg_salary` returns `NULL`, and
`get_vacancies_with_higher_salary` — whose strict comparison against a
`NULL` parameter holds for no row — returns the empty list. -/
theorem c8_null_avg_empty_result (st : DBState)
    (h : ∀ v ∈ st.vacancies,
      v.salary_from = Option.none ∨ v.salary_to = Option.none) :
    get_avg_salary st = Option.none ∧
    get_vacancies_with_higher_salary st = [] := by
  have havg : get_avg_salary st = Option.none := by
    unfold get_avg_salary sqlAvg avgWhere
    have hnil : st.vacancies.filter
        (fun v => v.salary_from.isSome && v.salary_to.isSome) = [] := by
      rw [List.filter_eq_nil_iff]
      intro v hv
      rcases h v hv with h1 | h1 <;> simp [h1]
    rw [hnil]
    rfl
  refine ⟨havg, ?_⟩
  unfold get_vacancies_with_higher_salary
  rw [havg]
  have hnil2 : st.vacancies.filter
      (fun v => sqlGtParam (rowMidpoint v) Option.none) = [] := by
    rw [List.filter_eq_nil_iff]
    intro v _
    cases rowMidpoint v <;> simp [sqlGtParam]
  show (st.vacancies.filter
      (fun v => sqlGtParam (rowMidpoint v) Option.none)).map vTuple = []
  rw [hnil2]
  rfl

theorem c8_witness :
    get_avg_salary DBState.empty = Option.none ∧
    get_vacancies_with_higher_salary DBState.empty = [] :=
  c8_null_avg_empty_result DBState.empty (by simp [DBState.empty])

/-- Claim C10: the keyword is interpolated into the `ILIKE` pattern unescaped, so
its metacharacters keep their wildcard meaning: the keyword `a_c` (which
contains `_`) returns the vacancy named `abc`, although `a_c` is not a
substring of `abc` (neither literally nor case-insensitively). -/
theorem c10_metachar_keyword_not_literal :
    ('_' ∈ "a_c".data) ∧
    get_vacancies_with_keyword stW10 "a_c"
      = [(some "abc", some 1, some 2, some "u20")] ∧
    substrMatch "a_c".data "abc".data = false ∧
    containsCI "abc" "a_c" = false :=
  ⟨by decide, by decide, by decide, by decide⟩

/-- Claim C5: `get_avg_salary` is the mean, over exactly the vacancies with both
salary bounds non-null, of the per-row midpoint `(salary_from +
salary_to) / 2` (SQL integer division), and it is `NULL` — not an error —
exactly when no qualifying row exists. -/
theorem c5_avg_salary (st : DBState) :
    get_avg_salary st =
      (if (specQualifying st).isEmpty then Option.none
       else some (((specQualifying st).map
             (fun p => ((specMidpoint p.1 p.2 : Int) : ℚ))).sum
           / ((specQualifying st).length : ℚ))) := by
  have hpipe := midpoints_pipeline st.vacancies
  have hie : ∀ (l : List (Int × Int)) (f : Int × Int → Int),
      (l.map f).isEmpty = l.isEmpty := by
    intro l f
    cases l <;> rfl
  unfold get_avg_salary sqlAvg avgWhere specQualifying
  simp only [hpipe]
  rw [List.map_map, List.length_map, hie]
  rfl

/-- Claim C6: when `get_avg_salary` yields an average,
`get_vacancies_with_higher_salary` returns exactly the tuples of the
vacancies whose midpoint is strictly greater than that average, and a
vacancy whose midpoint equals the average is excluded. -/
theorem c6_higher_salary_strict (st : DBState) (q : ℚ)
    (havg : get_avg_salary st = some q) :
    get_vacancies_with_higher_salary st = specHigher st q ∧
    ∀ v ∈ st.vacancies,
      (∃ a b, v.salary_from = some a ∧ v.salary_to = some b ∧
        (Int.cast (specMidpoint a b) : ℚ) = q) →
      vTuple v ∉ get_vacancies_with_higher_salary st := by
  have hpoint : ∀ v : VacancyRow, sqlGtParam (rowMidpoint v) (some q)
      = (match v.salary_from, v.salary_to with
         | some a, some b => decide ((Int.cast (specMidpoint a b) : ℚ) > q)
         | _, _ => false) := by
    intro v
    cases hsf : v.salary_from <;> cases hst : v.salary_to <;>
      simp [sqlGtParam, rowMidpoint, sqlAddInt, sqlDiv2, specMidpoint, hsf, hst]
  have heq : get_vacancies_with_higher_salary st = specHigher st q := by
    unfold get_vacancies_with_higher_salary specHigher
    rw [havg]
    show (st.vacancies.filter
        (fun v => sqlGtParam (rowMidpoint v) (some q))).map vTuple = _
    congr 1
    apply List.filter_congr
    intro v _
    rw [hpoint v]
  refine ⟨heq, ?_⟩
  intro v _ ⟨a, b, ha, hb, hmid⟩ hmem
  rw [heq] at hmem
  unfold specHigher at hmem
  rcases List.mem_map.mp hmem with ⟨w, hwmem, hwt⟩
  rcases List.mem_filter.mp hwmem with ⟨_, hwp⟩
  unfold vTuple at hwt
  rw [Prod.mk.injEq, Prod.mk.injEq, Prod.mk.injEq] at hwt
  obtain ⟨-, hsf, hst, -⟩ := hwt
  rw [hsf, ha, hst, hb] at hwp
  simp at hwp
  rw [hmid] at hwp
  exact lt_irrefl q hwp

theorem c6_witness :
    get_avg_salary stW6 = some 275 ∧
    get_vacancies_with_higher_salary stW6 = specHigher stW6 275 := by
  have havg : get_avg_salary stW6 = some 275 := by
    have h1 : Int.tdiv 300 2 = 150 := by decide
    have h2 : Int.tdiv 800 2 = 400 := by decide
    simp [get_avg_salary, sqlAvg, avgWhere, rowMidpoint, sqlAddInt, sqlDiv2,
      stW6, h1, h2]
    norm_num
  exact ⟨havg, (c6_higher_salary_strict stW6 275 havg).1⟩

/-- Claim C7 counterexample: for the keyword `%` the query result differs from
"the vacancies whose name contains the keyword as a case-insensitive
substring": the wildcard matches the name `abc`, which does not contain
`%`. -/
theorem c7_counterexample :
    get_vacancies_with_keyword stW10 "%" ≠ keywordSpec stW10 "%" := by
  decide

/-- Claim C7 (amended): for every keyword free of the SQL `LIKE` metacharacters
`%`, `_` and `\`, `get_vacancies_with_keyword` returns exactly the
`(name, salary_from, salary_to, url)` tuples of the vacancies whose name
contains the keyword as a case-insensitive substring. -/
theorem c7_keyword_search (st : DBState) (kw : String)
    (hk : noMetaL kw.data = true) :
    get_vacancies_with_keyword st kw = keywordSpec st kw := by
  have hlow : noMetaL (kw.data.map Char.toLower) = true :=
    noMetaL_map_toLower kw.data hk
  unfold get_vacancies_with_keyword keywordSpec
  have hfun : ∀ v : VacancyRow,
      (match v.name with
       | some nm =>
         if sqlIlike nm ('%' :: kw.data ++ ['%']) then
           some (some nm, v.salary_from, v.salary_to, v.url)
         else Option.none
       | Option.none => Option.none)
      = (match v.name with
         | some nm =>
           if containsCI nm kw then
             some (some nm, v.salary_from, v.salary_to, v.url)
           else Option.none
         | Option.none => Option.none) := by
    intro v
    cases v.name with
    | none => rfl
    | some nm =>
      have hmz : sqlIlike nm ('%' :: kw.data ++ ['%']) = containsCI nm kw := by
        unfold sqlIlike containsCI
        have hmap : ('%' :: kw.data ++ ['%']).map Char.toLower
            = '%' :: (kw.data.map Char.toLower ++ ['%']) := by
          simp [List.map_append, show Char.toLower '%' = '%' from by decide]
        rw [hmap, likeMatch_pct_lit_pct (kw.data.map Char.toLower) hlow]
      simp only [hmz]
  exact congrArg (fun f => List.filterMap f st.vacancies) (funext hfun)

theorem c7_witness :
    noMetaL "Engineer".data = true ∧
    get_vacancies_with_keyword stSenior "Engineer"
      = keywordSpec stSenior "Engineer" ∧
    keywordSpec stSenior "Engineer"
      = [(some "SENIOR ENGINEER", some 1, some 2, some "u30")] :=
  ⟨by decide, c7_keyword_search stSenior "Engineer" (by decide), by decide⟩

/-- Adapting a string into a `VARCHAR` succeeds only as that string. -/
theorem toVarchar_str_ok {lim : Nat} {s : String} {c : Option String}
    (h : toVarchar lim (.str s) = .ok c) : c = some s := by
  have h1 : toVarchar lim (.str s)
      = if s.length ≤ lim then .ok (some s)
        else .error "value too long for type character varying" := rfl
  rw [h1] at h
  split at h
  · simpa using h.symm
  · simp at h

/-- Inversion of a successful company insert statement. -/
theorem execInsertCompany_ok_cases (st : DBState) (idv namev urlv : PyVal)
    (st' : DBState) (hexec : execInsertCompany st idv namev urlv = .ok st') :
    ∃ i namec urlc,
      toIntCol idv = .ok (some i) ∧ toVarchar 255 namev = .ok namec ∧
      toText urlv = .ok urlc ∧
      ((st.companies.any (fun c => c.id == i) = true ∧ st' = st) ∨
       (st.companies.any (fun c => c.id == i) = false ∧
        (∃ nm, namec = some nm ∧
          st.companies.any (fun c => c.name == nm) = false ∧
          st' = { st with companies :=
            st.companies ++ [{ id := i, name := nm, url := urlc }] }))) := by
  unfold execInsertCompany at hexec
  split at hexec
  · simp at hexec
  next idc hidv =>
    split at hexec
    · simp at hexec
    next namec hnamev =>
      split at hexec
      · simp at hexec
      next urlc hurlv =>
        cases idc with
        | none => simp at hexec
        | some i =>
          dsimp only at hexec
          split at hexec
          · rename_i hany
            exact ⟨i, namec, urlc, hidv, hnamev, hurlv,
              Or.inl ⟨hany, by simpa using hexec.symm⟩⟩
          · rename_i hany
            rw [Bool.not_eq_true] at hany
            cases namec with
            | none => simp at hexec
            | some nm =>
              dsimp only at hexec
              split at hexec
              · simp at hexec
              · rename_i huniq
                rw [Bool.not_eq_true] at huniq
                exact ⟨i, some nm, urlc, hidv, hnamev, hurlv,
                  Or.inr ⟨hany, nm, rfl, huniq, by simpa using hexec.symm⟩⟩

/-- Inversion of a successful vacancy insert statement (no fault): all
parameters adapted, and either a primary-key conflict left the state
unchanged or the row was appended with the foreign key satisfied. -/
theorem execInsertVacancy_ok_cases (st : DBState)
    (idv namev sfv stv curv urlv : PyVal) (cid : Int) (st' : DBState)
    (hexec : execInsertVacancy Option.none st idv cid namev sfv stv curv urlv
      = .ok st') :
    ∃ i nm sfc stc curc url,
      toIntCol idv = .ok (some i) ∧ toVarchar 255 namev = .ok nm ∧
      toIntCol sfv = .ok sfc ∧ toIntCol stv = .ok stc ∧
      toVarchar 10 curv = .ok curc ∧ toText urlv = .ok url ∧
      ((st.vacancies.any (fun r => r.id == i) = true ∧ st' = st) ∨
       (st.vacancies.any (fun r => r.id == i) = false ∧
        st.companies.any (fun c => c.id == cid) = true ∧
        st' = { st with vacancies := st.vacancies ++
          [{ id := i, company_id := some cid, name := nm, salary_from := sfc,
             salary_to := stc, currency := curc, url := url }] })) := by
  unfold execInsertVacancy at hexec
  split at hexec
  · simp_all
  next _ =>
    split at hexec
    · simp at hexec
    next idc hidv =>
      split at hexec
      · simp at hexec
      next nm hnm =>
        split at hexec
        · simp at hexec
        next sfc hsf =>
          split at hexec
          · simp at hexec
          next stc hst =>
            split at hexec
            · simp at hexec
            next curc hcur =>
              split at hexec
              · simp at hexec
              next url hurl =>
                cases idc with
                | none => simp at hexec
                | some i =>
                  dsimp only at hexec
                  split at hexec
                  · rename_i hany
                    exact ⟨i, nm, sfc, stc, curc, url, hidv, hnm, hsf, hst,
                      hcur, hurl, Or.inl ⟨hany, by simpa using hexec.symm⟩⟩
                  · rename_i hany
                    rw [Bool.not_eq_true] at hany
                    split at hexec
                    · rename_i hfk
                      exact ⟨i, nm, sfc, stc, curc, url, hidv, hnm, hsf, hst,
                        hcur, hurl, Or.inr ⟨hany, hfk, by simpa using hexec.symm⟩⟩
                    · simp at hexec

/-- Claim C3 counterexample: a `currency` that is present and non-null, but the
empty string, is replaced by `"RUR"` instead of being stored as given — the
Python `or`-defaulting treats every falsy value like a missing one. -/
theorem c3_counterexample :
    dictGet [("from", PyVal.int 100), ("to", PyVal.none),
             ("currency", PyVal.str "")] "currency" = PyVal.str "" ∧
    (PyVal.str "" ≠ PyVal.none) ∧
    insert_vacancy Option.none vC3 1 stOneCompany =
      .ok (⟨[companyAcme],
        [{ id := 40, company_id := some 1, name := some "Analyst",
           salary_from := some 100, salary_to := some 0,
           currency := some "RUR", url := some "http://x/40" }]⟩, []) ∧
    (some "RUR" ≠ (some "" : Option String)) := by
  refine ⟨rfl, ?_, rfl, ?_⟩
  · intro h
    exact PyVal.noConfusion h
  · decide

/-- Claim C3 (amended): for a vacancy record with the required fields, a salary
sub-structure within scope (absent/null, or a mapping with integer/null
bounds and string/null currency), a valid fresh integer identifier, and a
successful silent insert, the stored row carries the amended defaulting:
absent, null or falsy parts (`0` bounds, empty-string currency) become
`0`/`0`/`"RUR"`, truthy parts are stored as given. -/
theorem c3_salary_defaulting (v : List (String × PyVal)) (cid : Int)
    (st st2 : DBState) (i : Int)
    (hreq : requiredKeys.all (fun k => hasKey v k) = true)
    (hshape : salShapeOk (dictGet v "salary") = true)
    (hid : toIntCol (dictGet v "id") = .ok (some i))
    (hfresh : st.vacancies.any (fun r => r.id == i) = false)
    (hok : insert_vacancy Option.none v cid st = .ok (st2, [])) :
    ∃ nm url, st2 = { st with vacancies := st.vacancies ++
      [{ id := i, company_id := some cid, name := nm,
         salary_from := some (expFrom (dictGet v "salary")),
         salary_to := some (expTo (dictGet v "salary")),
         currency := some (expCurrency (dictGet v "salary")),
         url := url }] } := by
  unfold insert_vacancy at hok
  split at hok
  · rw [salaryTriple_of_shape v hshape] at hok
    dsimp only at hok
    split at hok
    next stx hex =>
      simp only [Except.ok.injEq, Prod.mk.injEq] at hok
      obtain ⟨hst, -⟩ := hok
      subst hst
      obtain ⟨i2, nm, sfc, stc, curc, url, hid2, hnm, hsf2, hst2, hcur2,
        hurl, hcases⟩ :=
        execInsertVacancy_ok_cases st (dictGet v "id") (dictGet v "name")
          (.int (expFrom (dictGet v "salary")))
          (.int (expTo (dictGet v "salary")))
          (.str (expCurrency (dictGet v "salary")))
          (dictGet v "alternate_url") cid stx hex
      rw [hid] at hid2
      simp only [Except.ok.injEq, Option.some.injEq] at hid2
      subst hid2
      have hsfc : sfc = some (expFrom (dictGet v "salary")) := by
        have hr : toIntCol (.int (expFrom (dictGet v "salary")))
            = .ok (some (expFrom (dictGet v "salary"))) := rfl
        rw [hr] at hsf2
        simpa using hsf2.symm
      have hstc : stc = some (expTo (dictGet v "salary")) := by
        have hr : toIntCol (.int (expTo (dictGet v "salary")))
            = .ok (some (expTo (dictGet v "salary"))) := rfl
        rw [hr] at hst2
        simpa using hst2.symm
      have hcurc : curc = some (expCurrency (dictGet v "salary")) :=
        toVarchar_str_ok hcur2
      rcases hcases with ⟨hany, -⟩ | ⟨-, -, happ⟩
      · rw [hany] at hfresh
        exact absurd hfresh (by simp)
      · subst hsfc hstc hcurc
        exact ⟨nm, url, happ⟩
    next msg hex =>
      simp at hok
  · rename_i hfail
    exact absurd hreq hfail

theorem c3_witness :
    insert_vacancy Option.none vW3 1 stOneCompany = .ok (stW3r, []) ∧
    ∃ nm url, stW3r = { stOneCompany with vacancies :=
      stOneCompany.vacancies ++
      [{ id := 41, company_id := some 1, name := nm,
         salary_from := some (expFrom (dictGet vW3 "salary")),
         salary_to := some (expTo (dictGet vW3 "salary")),
         currency := some (expCurrency (dictGet vW3 "salary")),
         url := url }] } :=
  ⟨rfl, c3_salary_defaulting vW3 1 stOneCompany stW3r 41 rfl rfl rfl rfl rfl⟩

/-- Forward evaluation of `insert_company` from its intermediate results. -/
theorem insert_company_steps (c : List (String × PyVal)) (st : DBState)
    (idv namev urlv : PyVal) (st2 : DBState)
    (hidv : getItem c "id" = .ok idv)
    (hnamev : getItem c "name" = .ok namev)
    (hurlv : getItem c "alternate_url" = .ok urlv)
    (hex : execInsertCompany st idv namev urlv = .ok st2) :
    insert_company c st = .ok st2 := by
  unfold insert_company
  rw [hidv]
  dsimp only
  rw [hnamev]
  dsimp only
  rw [hurlv]
  dsimp only
  rw [hex]

/-- A conflicting primary key makes the company insert a no-op, provided
all parameters adapt. -/
theorem execInsertCompany_conflict (st : DBState) (idv namev urlv : PyVal)
    (i : Int) (namec urlc : Option String)
    (hid : toIntCol idv = .ok (some i))
    (hnm : toVarchar 255 namev = .ok namec)
    (hurl : toText urlv = .ok urlc)
    (hany : st.companies.any (fun c => c.id == i) = true) :
    execInsertCompany st idv namev urlv = .ok st := by
  unfold execInsertCompany
  rw [hid]
  dsimp only
  rw [hnm]
  dsimp only
  rw [hurl]
  dsimp only
  simp [hany]

/-- Inversion of a successful `insert_company` call. -/
theorem insert_company_ok_cases (c : List (String × PyVal))
    (st st2 : DBState) (h : insert_company c st = .ok st2) :
    ∃ idv namev urlv,
      getItem c "id" = .ok idv ∧ getItem c "name" = .ok namev ∧
      getItem c "alternate_url" = .ok urlv ∧
      execInsertCompany st idv namev urlv = .ok st2 := by
  unfold insert_company at h
  split at h
  · simp at h
  next idv hidv =>
    split at h
    · simp at h
    next namev hnamev =>
      split at h
      · simp at h
      next urlv hurlv =>
        split at h
        next st3 hex =>
          simp only [Except.ok.injEq] at h
          subst h
          exact ⟨idv, namev, urlv, hidv, hnamev, hurlv, hex⟩
        next msg hex =>
          simp at h

/-- The company insert is idempotent once it has succeeded: the second call
returns the same state, and the identifier occurs on exactly one row. -/
theorem insert_company_idem (c : List (String × PyVal)) (st st2 : DBState)
    (hwf : st.wf) (h1 : insert_company c st = .ok st2) :
    insert_company c st2 = .ok st2 ∧
    ∃ i, companyIdOf c = some i ∧
      (st2.companies.filter (fun r => r.id == i)).length = 1 := by
  obtain ⟨idv, namev, urlv, hidv, hnamev, hurlv, hex⟩ :=
    insert_company_ok_cases c st st2 h1
  obtain ⟨i, namec, urlc, hid, hnm, hurl, hcases⟩ :=
    execInsertCompany_ok_cases st idv namev urlv st2 hex
  have hidOf : companyIdOf c = some i := by
    unfold companyIdOf
    rw [hidv]
    dsimp only
    rw [hid]
  rcases hcases with ⟨hany, hst⟩ | ⟨hany, nm, hnamec, huniq, hst⟩
  · rw [hst]
    refine ⟨insert_company_steps c st idv namev urlv st hidv hnamev hurlv
      (execInsertCompany_conflict st idv namev urlv i namec urlc
        hid hnm hurl hany), i, hidOf, ?_⟩
    have hmem : ∃ x ∈ st.companies, x.id = i := by
      obtain ⟨x, hx, hxi⟩ := List.any_eq_true.mp hany
      exact ⟨x, hx, by simpa using hxi⟩
    exact filter_key_length_one (fun r => r.id) st.companies i hwf.1 hmem
  · subst hst
    have hany2 : (st.companies ++ [({ id := i, name := nm, url := urlc }
        : CompanyRow)]).any (fun c => c.id == i) = true := by
      simp
    refine ⟨insert_company_steps c _ idv namev urlv _ hidv hnamev hurlv
      (execInsertCompany_conflict _ idv namev urlv i namec urlc
        hid hnm hurl hany2), i, hidOf, ?_⟩
    have hnone : st.companies.filter (fun r => r.id == i) = [] := by
      rw [List.filter_eq_nil_iff]
      intro x hx
      simp only [beq_iff_eq]
      intro he
      have hc : st.companies.any (fun c => c.id == i) = true :=
        List.any_eq_true.mpr ⟨x, hx, by simpa using he⟩
      rw [hc] at hany
      exact Bool.noConfusion hany
    show ((st.companies ++ [({ id := i, name := nm, url := urlc }
        : CompanyRow)]).filter (fun r => r.id == i)).length = 1
    rw [List.filter_append, hnone]
    simp

/-- Forward evaluation of `insert_vacancy` from its intermediate results. -/
theorem insert_vacancy_steps (v : List (String × PyVal)) (cid : Int)
    (st : DBState) (sf sv cur : PyVal) (st2 : DBState)
    (hreq : requiredKeys.all (fun k => hasKey v k) = true)
    (htriple : salaryTriple v = .ok (sf, sv, cur))
    (hex : execInsertVacancy Option.none st (dictGet v "id") cid
      (dictGet v "name") sf sv cur (dictGet v "alternate_url") = .ok st2) :
    insert_vacancy Option.none v cid st = .ok (st2, []) := by
  unfold insert_vacancy
  simp [hreq, htriple, hex]

/-- A conflicting primary key makes the vacancy insert a no-op, provided
all parameters adapt. -/
theorem execInsertVacancy_conflict (st : DBState)
    (idv namev sfv stv curv urlv : PyVal) (cid : Int) (i : Int)
    (nm curc url : Option String) (sfc stc : Option Int)
    (hid : toIntCol idv = .ok (some i))
    (hnm : toVarchar 255 namev = .ok nm)
    (hsf : toIntCol sfv = .ok sfc)
    (hst : toIntCol stv = .ok stc)
    (hcur : toVarchar 10 curv = .ok curc)
    (hurl : toText urlv = .ok url)
    (hany : st.vacancies.any (fun r => r.id == i) = true) :
    execInsertVacancy Option.none st idv cid namev sfv stv curv urlv
      = .ok st := by
  unfold execInsertVacancy
  dsimp only
  rw [hid]
  dsimp only
  rw [hnm]
  dsimp only
  rw [hsf]
  dsimp only
  rw [hst]
  dsimp only
  rw [hcur]
  dsimp only
  rw [hurl]
  dsimp only
  simp [hany]

/-- Inversion of a successful, silent (no diagnostics) `insert_vacancy`
call with the required keys present. -/
theorem insert_vacancy_ok_nolog_cases (v : List (String × PyVal)) (cid : Int)
    (st st2 : DBState)
    (hreq : requiredKeys.all (fun k => hasKey v k) = true)
    (h : insert_vacancy Option.none v cid st = .ok (st2, [])) :
    ∃ sf sv cur, salaryTriple v = .ok (sf, sv, cur) ∧
      execInsertVacancy Option.none st (dictGet v "id") cid
        (dictGet v "name") sf sv cur (dictGet v "alternate_url") = .ok st2 := by
  unfold insert_vacancy at h
  split at h
  · split at h
    · simp at h
    next sf sv cur htrip =>
      split at h
      next stx hex =>
        simp only [Except.ok.injEq, Prod.mk.injEq] at h
        obtain ⟨hst, -⟩ := h
        subst hst
        exact ⟨sf, sv, cur, htrip, hex⟩
      next msg hex =>
        simp at h
  · rename_i hf
    exact absurd hreq hf

/-- The silent vacancy insert is idempotent once it has succeeded: the
second call returns the same state, and the identifier occurs on exactly
one row. -/
theorem insert_vacancy_idem (v : List (String × PyVal)) (cid : Int)
    (st st2 : DBState) (hwf : st.wf)
    (hreq : requiredKeys.all (fun k => hasKey v k) = true)
    (h1 : insert_vacancy Option.none v cid st = .ok (st2, [])) :
    insert_vacancy Option.none v cid st2 = .ok (st2, []) ∧
    ∃ i, vacIdOf v = some i ∧
      (st2.vacancies.filter (fun r => r.id == i)).length = 1 := by
  obtain ⟨sf, sv, cur, htrip, hex⟩ :=
    insert_vacancy_ok_nolog_cases v cid st st2 hreq h1
  obtain ⟨i, nm, sfc, stc, curc, url, hid, hnm, hsf, hst, hcur, hurl,
    hcases⟩ := execInsertVacancy_ok_cases st (dictGet v "id")
      (dictGet v "name") sf sv cur (dictGet v "alternate_url") cid st2 hex
  have hidOf : vacIdOf v = some i := by
    unfold vacIdOf
    rw [hid]
  rcases hcases with ⟨hany, hst2⟩ | ⟨hany, hfk, hst2⟩
  · rw [hst2]
    refine ⟨insert_vacancy_steps v cid st sf sv cur st hreq htrip
      (execInsertVacancy_conflict st (dictGet v "id") (dictGet v "name")
        sf sv cur (dictGet v "alternate_url") cid i nm curc url sfc stc
        hid hnm hsf hst hcur hurl hany), i, hidOf, ?_⟩
    have hmem : ∃ x ∈ st.vacancies, x.id = i := by
      obtain ⟨x, hx, hxi⟩ := List.any_eq_true.mp hany
      exact ⟨x, hx, by simpa using hxi⟩
    exact filter_key_length_one (fun r => r.id) st.vacancies i hwf.2 hmem
  · subst hst2
    have hany2 : ∀ row : VacancyRow, row.id = i →
        (st.vacancies ++ [row]).any (fun r => r.id == i) = true := by
      intro row hr
      simp [hr]
    refine ⟨insert_vacancy_steps v cid _ sf sv cur _ hreq htrip
      (execInsertVacancy_conflict _ (dictGet v "id") (dictGet v "name")
        sf sv cur (dictGet v "alternate_url") cid i nm curc url sfc stc
        hid hnm hsf hst hcur hurl (hany2 _ rfl)), i, hidOf, ?_⟩
    have hnone : st.vacancies.filter (fun r => r.id == i) = [] := by
      rw [List.filter_eq_nil_iff]
      intro x hx
      simp only [beq_iff_eq]
      intro he
      have hc : st.vacancies.any (fun r => r.id == i) = true :=
        List.any_eq_true.mpr ⟨x, hx, by simpa using he⟩
      rw [hc] at hany
      exact Bool.noConfusion hany
    have hcount : ∀ row : VacancyRow, row.id = i →
        ((st.vacancies ++ [row]).filter (fun r => r.id == i)).length = 1 := by
      intro row hr
      rw [List.filter_append, hnone]
      simp [hr]
    exact hcount _ rfl

/-- Claim C1: on a well-formed state, once an insert has succeeded (for the
vacancy writer: succeeded silently, with the required keys present),
calling the same insert again with the same record is a no-op returning the
unchanged state, and exactly one row carries the record's identifier. -/
theorem c1_insert_twice_idempotent (c v : List (String × PyVal)) (cid : Int)
    (st1 st1' st2 st2' : DBState) :
    (st1.wf → insert_company c st1 = .ok st1' →
      insert_company c st1' = .ok st1' ∧
      ∃ i, companyIdOf c = some i ∧
        (st1'.companies.filter (fun r => r.id == i)).length = 1) ∧
    (st2.wf → requiredKeys.all (fun k => hasKey v k) = true →
      insert_vacancy Option.none v cid st2 = .ok (st2', []) →
      insert_vacancy Option.none v cid st2' = .ok (st2', []) ∧
      ∃ i, vacIdOf v = some i ∧
        (st2'.vacancies.filter (fun r => r.id == i)).length = 1) :=
  ⟨fun hwf h1 => insert_company_idem c st1 st1' hwf h1,
   fun hwf hreq h1 => insert_vacancy_idem v cid st2 st2' hwf hreq h1⟩

theorem c1_witness :
    DBState.empty.wf ∧ stOneCompany.wf ∧
    requiredKeys.all (fun k => hasKey vW1 k) = true ∧
    insert_company cW DBState.empty = .ok stOneCompany ∧
    (insert_company cW stOneCompany = .ok stOneCompany ∧
      ∃ i, companyIdOf cW = some i ∧
        (stOneCompany.companies.filter (fun r => r.id == i)).length = 1) ∧
    insert_vacancy Option.none vW1 1 stOneCompany = .ok (stVW1, []) ∧
    (insert_vacancy Option.none vW1 1 stVW1 = .ok (stVW1, []) ∧
      ∃ i, vacIdOf vW1 = some i ∧
        (stVW1.vacancies.filter (fun r => r.id == i)).length = 1) := by
  refine ⟨by decide, by decide, rfl, rfl, ?_, rfl, ?_⟩
  · exact (c1_insert_twice_idempotent cW vW1 1 DBState.empty stOneCompany
      DBState.empty DBState.empty).1 (by decide) rfl
  · exact (c1_insert_twice_idempotent cW vW1 1 DBState.empty stOneCompany
      stOneCompany stVW1).2 (by decide) rfl rfl
